import Mathlib

/-!
Verification of the NanoClaw core against its specification.

Shallow embedding of:
  - src/container-pool.ts  (warm container pool)
  - src/db.ts              (scheduled-task store operations)
  - container/agent-runner/src/ipc-mcp.ts (sandbox-side IPC tools)

State is passed explicitly; the single-threaded host mutations become pure
state-transition functions.  OS processes are identified by the pid counter
`nextPid`; JavaScript object identity of pool entries (used by the exit and
error handlers) is represented by pid equality, which is valid because every
spawn allocates a fresh pid.
-/

namespace NanoClaw

/-! ## Container pool (src/container-pool.ts) -/

/-- Embeds `interface WarmEntry`: process handle (as a pid), creation time,
optional pending idle timer (as a timer id), and the dead flag. -/
structure WarmEntry where
  process : Nat
  createdAt : Nat
  idleTimer : Option Nat
  dead : Bool
deriving DecidableEq, Repr

/-- The module state of container-pool.ts: the `pool` map (association list
with unique keys), the set of pending timers, fresh-id counters, the current
clock, the `CONTAINER_POOL_MAX_IDLE` configuration value, and a log of every
`spawn` call as (group, pid, containerArgs). -/
structure PoolState where
  pool : List (String × WarmEntry)
  timers : List Nat
  nextPid : Nat
  nextTimer : Nat
  now : Nat
  maxIdle : Int
  spawned : List (String × Nat × List String)
deriving DecidableEq, Repr

/-- Lookup in the pool map (`pool.get`). -/
def lookupKey (g : String) : List (String × WarmEntry) → Option WarmEntry
  | [] => none
  | (k, e) :: rest => if k = g then some e else lookupKey g rest

/-- Deletion from the pool map (`pool.delete`).  The pool's keys are unique
(`warmContainer` only inserts when the key is absent), so removing every
binding of the key coincides with deleting the single binding. -/
def eraseKey (g : String) (l : List (String × WarmEntry)) : List (String × WarmEntry) :=
  l.filter (fun p => !(p.1 = g : Bool))

/-- Number of pool entries for a group key. -/
def countKey (g : String) (l : List (String × WarmEntry)) : Nat :=
  (l.filter (fun p => (p.1 = g : Bool))).length

/-- Number of spawned processes recorded for a group key. -/
def countSpawned (g : String) (l : List (String × Nat × List String)) : Nat :=
  (l.filter (fun x => (x.1 = g : Bool))).length

/-- Embeds `warmContainer(groupFolder, containerArgs)`: no-op when the pool
already has the key; otherwise spawn a process, build the entry (scheduling an
idle timer when `CONTAINER_POOL_MAX_IDLE > 0`) and insert it. -/
def warmContainer (g : String) (containerArgs : List String) (s : PoolState) : PoolState :=
  if (lookupKey g s.pool).isSome then s
  else
    let pid := s.nextPid
    let timer : Option Nat := if 0 < s.maxIdle then some s.nextTimer else none
    let entry : WarmEntry :=
      { process := pid, createdAt := s.now, idleTimer := timer, dead := false }
    { s with
      pool := (g, entry) :: s.pool
      timers := match timer with
        | some t => t :: s.timers
        | none => s.timers
      nextPid := pid + 1
      nextTimer := match timer with
        | some _ => s.nextTimer + 1
        | none => s.nextTimer
      spawned := (g, pid, containerArgs) :: s.spawned }

/-- Embeds `acquireWarmContainer(groupFolder)`: returns the process (or none)
together with the updated pool state.  A missing entry returns null and leaves
the state; a dead entry is deleted and null returned; a live entry has its
idle timer cleared, is removed from the pool, and its process is returned. -/
def acquireWarmContainer (g : String) (s : PoolState) : Option Nat × PoolState :=
  match lookupKey g s.pool with
  | none => (none, s)
  | some e =>
    if e.dead then (none, { s with pool := eraseKey g s.pool })
    else
      let timers := match e.idleTimer with
        | some t => s.timers.erase t
        | none => s.timers
      (some e.process, { s with pool := eraseKey g s.pool, timers := timers })

/-- Signals sent to a child process. -/
inductive Signal
  | sigterm
  | sigkill
deriving DecidableEq, Repr

/-- Observable side effects of pool operations on child processes. -/
inductive HostAction
  | stdinEnd (pid : Nat)
  | kill (pid : Nat) (sig : Signal)
deriving DecidableEq, Repr

/-- Embeds `evict(groupFolder)`: no-op when no entry exists; otherwise clears
the idle timer, removes the entry, and — when the entry is not dead — closes
the process stdin and sends SIGTERM.  The returned list is the sequence of
process-level actions performed. -/
def evict (g : String) (s : PoolState) : PoolState × List HostAction :=
  match lookupKey g s.pool with
  | none => (s, [])
  | some e =>
    let timers := match e.idleTimer with
      | some t => s.timers.erase t
      | none => s.timers
    let s' := { s with pool := eraseKey g s.pool, timers := timers }
    if e.dead then (s', [])
    else (s', [HostAction.stdinEnd e.process, HostAction.kill e.process Signal.sigterm])

/-- Embeds the `close` handler registered by `warmContainer`: when the entry
currently in the pool is the one the handler was registered for (object
identity, represented by pid equality), the entry is removed. -/
def handleClose (g : String) (pid : Nat) (s : PoolState) : PoolState :=
  match lookupKey g s.pool with
  | some e => if e.process = pid then { s with pool := eraseKey g s.pool } else s
  | none => s

/-- Embeds the `error` handler registered by `warmContainer`: the captured
entry's dead flag is set, and when that entry is still the one in the pool
(identity via pid) it is removed; a stale handler leaves the pool unchanged
(the mutated entry is no longer referenced by the pool). -/
def handleError (g : String) (pid : Nat) (s : PoolState) : PoolState :=
  match lookupKey g s.pool with
  | some e => if e.process = pid then { s with pool := eraseKey g s.pool } else s
  | none => s

theorem lookupKey_none_countKey (g : String) (l : List (String × WarmEntry))
    (h : lookupKey g l = none) : countKey g l = 0 := by
  induction l with
  | nil => rfl
  | cons p rest ih =>
    simp only [lookupKey] at h
    by_cases hk : p.1 = g
    · simp [hk] at h
    · simp only [hk, if_false] at h
      have hrest := ih h
      simp only [countKey] at hrest ⊢
      simp [List.filter_cons, hk, hrest]

theorem lookupKey_cons_self (g : String) (e : WarmEntry) (l : List (String × WarmEntry)) :
    lookupKey g ((g, e) :: l) = some e := by
  simp [lookupKey]

theorem lookupKey_eraseKey (g : String) (l : List (String × WarmEntry)) :
    lookupKey g (eraseKey g l) = none := by
  induction l with
  | nil => rfl
  | cons p rest ih =>
    by_cases hk : p.1 = g
    · simpa [eraseKey, List.filter_cons, hk] using ih
    · simp only [eraseKey, List.filter_cons] at ih ⊢
      simp [hk, lookupKey, ih]

theorem countKey_cons_self (g : String) (e : WarmEntry) (l : List (String × WarmEntry)) :
    countKey g ((g, e) :: l) = countKey g l + 1 := by
  simp [countKey, List.filter_cons]

theorem countSpawned_cons_self (g : String) (pid : Nat) (a : List String)
    (l : List (String × Nat × List String)) :
    countSpawned g ((g, pid, a) :: l) = countSpawned g l + 1 := by
  simp [countSpawned, List.filter_cons]

theorem warmContainer_of_present (g : String) (a : List String) (s : PoolState)
    (h : (lookupKey g s.pool).isSome = true) : warmContainer g a s = s := by
  simp [warmContainer, h]

/-- C1: for every group key, calling warmContainer twice in succession (with
the same or different container arguments) without an intervening acquire,
eviction, or process exit leaves exactly one pool entry and one spawned
process for that group: the second call is a no-op because a slot already
exists. -/
theorem warmContainer_twice_one_slot (g : String) (a1 a2 : List String) (s : PoolState) :
    warmContainer g a2 (warmContainer g a1 s) = warmContainer g a1 s ∧
    (lookupKey g s.pool = none →
      countKey g (warmContainer g a2 (warmContainer g a1 s)).pool = 1 ∧
      countSpawned g (warmContainer g a2 (warmContainer g a1 s)).spawned
        = countSpawned g s.spawned + 1) := by
  cases hl : lookupKey g s.pool with
  | some e =>
    have h1 : warmContainer g a1 s = s :=
      warmContainer_of_present g a1 s (by simp [hl])
    refine ⟨?_, ?_⟩
    · rw [h1]
      exact warmContainer_of_present g a2 s (by simp [hl])
    · intro hnone
      simp [hl] at hnone
  | none =>
    have hpool : (warmContainer g a1 s).pool
        = (g, { process := s.nextPid, createdAt := s.now,
                idleTimer := if 0 < s.maxIdle then some s.nextTimer else none,
                dead := false }) :: s.pool := by
      simp [warmContainer, hl]
    have hspawn : (warmContainer g a1 s).spawned = (g, s.nextPid, a1) :: s.spawned := by
      simp [warmContainer, hl]
    have hl1 : (lookupKey g (warmContainer g a1 s).pool).isSome = true := by
      rw [hpool, lookupKey_cons_self]
      rfl
    have h2 : warmContainer g a2 (warmContainer g a1 s) = warmContainer g a1 s :=
      warmContainer_of_present g a2 (warmContainer g a1 s) hl1
    refine ⟨h2, fun _ => ⟨?_, ?_⟩⟩
    · rw [h2, hpool, countKey_cons_self, lookupKey_none_countKey g s.pool hl]
    · rw [h2, hspawn, countSpawned_cons_self]

theorem warmContainer_twice_one_slot_witness :
    countKey "family"
      (warmContainer "family" ["run"] (warmContainer "family" ["run"]
        { pool := [], timers := [], nextPid := 0, nextTimer := 0,
          now := 0, maxIdle := 60000, spawned := [] })).pool = 1 ∧
    countSpawned "family"
      (warmContainer "family" ["run"] (warmContainer "family" ["run"]
        { pool := [], timers := [], nextPid := 0, nextTimer := 0,
          now := 0, maxIdle := 60000, spawned := [] })).spawned
      = countSpawned "family"
          (PoolState.spawned
            { pool := [], timers := [], nextPid := 0, nextTimer := 0,
              now := 0, maxIdle := 60000, spawned := [] }) + 1 :=
  (warmContainer_twice_one_slot "family" ["run"] ["run"]
    { pool := [], timers := [], nextPid := 0, nextTimer := 0,
      now := 0, maxIdle := 60000, spawned := [] }).2 rfl

/-- C2: acquireWarmContainer returns the slot's process and removes the slot
(clearing any pending idle timer) when a live slot exists; it returns null
when no slot exists or the slot is dead, removing the stale entry in the dead
case; after an eviction or a matching process exit it returns null, and a
returned process always comes from a live (non-dead) slot. -/
theorem acquireWarmContainer_spec (g : String) (pid : Nat) (s : PoolState) :
    (lookupKey g s.pool = none → acquireWarmContainer g s = (none, s)) ∧
    (∀ e, lookupKey g s.pool = some e → e.dead = false →
      (acquireWarmContainer g s).1 = some e.process ∧
      lookupKey g (acquireWarmContainer g s).2.pool = none ∧
      (∀ t, e.idleTimer = some t →
        (acquireWarmContainer g s).2.timers = s.timers.erase t)) ∧
    (∀ e, lookupKey g s.pool = some e → e.dead = true →
      (acquireWarmContainer g s).1 = none ∧
      lookupKey g (acquireWarmContainer g s).2.pool = none) ∧
    (acquireWarmContainer g (evict g s).1).1 = none ∧
    (∀ e, lookupKey g s.pool = some e → e.process = pid →
      (acquireWarmContainer g (handleClose g pid s)).1 = none) ∧
    (∀ p, (acquireWarmContainer g s).1 = some p →
      ∃ e, lookupKey g s.pool = some e ∧ e.dead = false ∧ e.process = p) := by
  refine ⟨?_, ?_, ?_, ?_, ?_, ?_⟩
  · intro h
    simp [acquireWarmContainer, h]
  · intro e he hdead
    refine ⟨?_, ?_, ?_⟩
    · simp [acquireWarmContainer, he, hdead]
    · simp [acquireWarmContainer, he, hdead, lookupKey_eraseKey]
    · intro t ht
      simp [acquireWarmContainer, he, hdead, ht]
  · intro e he hdead
    constructor
    · simp [acquireWarmContainer, he, hdead]
    · simp [acquireWarmContainer, he, hdead, lookupKey_eraseKey]
  · cases hl : lookupKey g s.pool with
    | none => simp [evict, hl, acquireWarmContainer]
    | some e =>
      by_cases hd : e.dead <;>
        simp [evict, hl, hd, acquireWarmContainer, lookupKey_eraseKey]
  · intro e he hp
    simp [handleClose, he, hp, acquireWarmContainer, lookupKey_eraseKey]
  · intro p hp
    cases hl : lookupKey g s.pool with
    | none => simp [acquireWarmContainer, hl] at hp
    | some e =>
      by_cases hd : e.dead
      · simp [acquireWarmContainer, hl, hd] at hp
      · refine ⟨e, rfl, by simpa using hd, ?_⟩
        simp [acquireWarmContainer, hl, hd] at hp
        exact hp

theorem acquireWarmContainer_spec_witness :
    (acquireWarmContainer "g"
      { pool := [("g", { process := 3, createdAt := 1, idleTimer := some 7, dead := false })],
        timers := [7], nextPid := 4, nextTimer := 8, now := 2,
        maxIdle := 60000, spawned := [("g", 3, [])] }).1 = some 3 ∧
    lookupKey "g"
      (acquireWarmContainer "g"
        { pool := [("g", { process := 3, createdAt := 1, idleTimer := some 7, dead := false })],
          timers := [7], nextPid := 4, nextTimer := 8, now := 2,
          maxIdle := 60000, spawned := [("g", 3, [])] }).2.pool = none := by
  have h := (acquireWarmContainer_spec "g" 3
    { pool := [("g", { process := 3, createdAt := 1, idleTimer := some 7, dead := false })],
      timers := [7], nextPid := 4, nextTimer := 8, now := 2,
      maxIdle := 60000, spawned := [("g", 3, [])] }).2.1
    { process := 3, createdAt := 1, idleTimer := some 7, dead := false }
    (by decide) rfl
  exact ⟨h.1, h.2.1⟩

/-- C9 counterexample: on a pool holding a live idle slot for group g with
pid 0, evict sends exactly a stdin close and a single SIGTERM; no forceful
SIGKILL is ever sent, contrary to the claimed escalation. -/
theorem evict_no_sigkill_counterexample :
    (evict "g"
      { pool := [("g", { process := 0, createdAt := 0, idleTimer := some 0, dead := false })],
        timers := [0], nextPid := 1, nextTimer := 1, now := 5,
        maxIdle := 60000, spawned := [("g", 0, [])] }).2
      = [HostAction.stdinEnd 0, HostAction.kill 0 Signal.sigterm] ∧
    HostAction.kill 0 Signal.sigkill ∉
      (evict "g"
        { pool := [("g", { process := 0, createdAt := 0, idleTimer := some 0, dead := false })],
          timers := [0], nextPid := 1, nextTimer := 1, now := 5,
          maxIdle := 60000, spawned := [("g", 0, [])] }).2 := by
  decide

/-- C9 (amended): evict removes the slot from the pool and cancels its idle
timer; for a live slot it closes the process stdin and sends one graceful
SIGTERM, with no escalation to a forceful signal; a dead slot is removed with
no signal sent; a missing key is a no-op. -/
theorem evict_spec (g : String) (s : PoolState) :
    (lookupKey g s.pool = none → evict g s = (s, [])) ∧
    (∀ e, lookupKey g s.pool = some e →
      lookupKey g (evict g s).1.pool = none ∧
      (∀ t, e.idleTimer = some t → (evict g s).1.timers = s.timers.erase t) ∧
      (e.dead = false →
        (evict g s).2 = [HostAction.stdinEnd e.process,
                         HostAction.kill e.process Signal.sigterm]) ∧
      (e.dead = true → (evict g s).2 = [])) ∧
    (∀ p, HostAction.kill p Signal.sigkill ∉ (evict g s).2) := by
  refine ⟨?_, ?_, ?_⟩
  · intro h
    simp [evict, h]
  · intro e he
    refine ⟨?_, ?_, ?_, ?_⟩
    · by_cases hd : e.dead <;> simp [evict, he, hd, lookupKey_eraseKey]
    · intro t ht
      by_cases hd : e.dead <;> simp [evict, he, hd, ht]
    · intro hd
      simp [evict, he, hd]
    · intro hd
      simp [evict, he, hd]
  · intro p
    cases hl : lookupKey g s.pool with
    | none => simp [evict, hl]
    | some e =>
      by_cases hd : e.dead <;> simp [evict, hl, hd]

theorem evict_spec_witness :
    (evict "g"
      { pool := [("g", { process := 0, createdAt := 0, idleTimer := some 0, dead := false })],
        timers := [0], nextPid := 1, nextTimer := 1, now := 5,
        maxIdle := 60000, spawned := [("g", 0, [])] }).2
      = [HostAction.stdinEnd 0, HostAction.kill 0 Signal.sigterm] :=
  (((evict_spec "g"
    { pool := [("g", { process := 0, createdAt := 0, idleTimer := some 0, dead := false })],
      timers := [0], nextPid := 1, nextTimer := 1, now := 5,
      maxIdle := 60000, spawned := [("g", 0, [])] }).2.1
    { process := 0, createdAt := 0, idleTimer := some 0, dead := false }
    (by decide)).2.2.1) rfl

/-! ## Sandbox-side result wait (container/agent-runner/src/ipc-mcp.ts,
`waitForEmailResult`) -/

/-- The result envelope shape `{success: bool, data?: any, error?: string}`.
The payload is abstracted to a string. -/
structure EmailResult where
  success : Bool
  data : Option String
  error : Option String
deriving DecidableEq, Repr

/-- Content of a result file: either text that `JSON.parse` accepts, carrying
the decoded envelope, or malformed text on which `JSON.parse` throws. -/
inductive JsonContent
  | wellFormed (r : EmailResult)
  | malformed
deriving DecidableEq, Repr

/-- The poll loop body of `waitForEmailResult`, over the sequence of
observations of the result file at the successive polls (one element per poll,
`none` = file absent).  Returns the reported result together with whether the
result file was deleted (`fs.unlinkSync` reached).  An exhausted list is the
`elapsed < maxWait` loop exit, reporting the timeout failure.  A present
well-formed file is parsed, deleted, and its envelope returned; a present
malformed file makes `JSON.parse` throw, so the catch branch reports a read
failure without deleting. -/
def waitGo : List (Option JsonContent) → EmailResult × Bool
  | [] => ({ success := false, data := none, error := some "Request timed out" }, false)
  | none :: rest => waitGo rest
  | some (JsonContent.wellFormed r) :: _ => (r, true)
  | some JsonContent.malformed :: _ =>
    ({ success := false, data := none, error := some "Failed to read result" }, false)

/-- Embeds `waitForEmailResult(requestId, maxWait)`: the loop polls the file
at elapsed times 0, 500, 1000, ... while `elapsed < maxWait`, with
`pollInterval = 500`.  `fileAt t` is the content of
`EMAIL_RESULTS_DIR/<requestId>.json` at elapsed time `t`. -/
def waitForEmailResult (fileAt : Nat → Option JsonContent) (maxWait : Nat) :
    EmailResult × Bool :=
  waitGo ((List.range ((maxWait + 499) / 500)).map (fun k => fileAt (k * 500)))

/-- C3: if the result file appears with parseable JSON within the wait budget,
the parsed envelope is returned and the file is deleted (single consumption);
if no file appears at any poll the wait reports a timeout failure; if the file
content is malformed the wait reports a parse failure (and does not delete).
The last conjunct instantiates the budget of the real loop: 30000 ms at 500 ms
polls. -/
theorem waitForEmailResult_spec (k : Nat) (r : EmailResult)
    (rest : List (Option JsonContent)) :
    waitGo (List.replicate k none ++ some (JsonContent.wellFormed r) :: rest)
      = (r, true) ∧
    waitGo (List.replicate k none ++ some JsonContent.malformed :: rest)
      = ({ success := false, data := none, error := some "Failed to read result" }, false) ∧
    waitGo (List.replicate k none)
      = ({ success := false, data := none, error := some "Request timed out" }, false) ∧
    waitForEmailResult (fun _ => none) 30000
      = ({ success := false, data := none, error := some "Request timed out" }, false) ∧
    waitForEmailResult (fun t => if 1000 ≤ t then some (JsonContent.wellFormed r) else none) 30000
      = (r, true) := by
  refine ⟨?_, ?_, ?_, ?_, ?_⟩
  · induction k with
    | zero => rfl
    | succ n ih => simpa [List.replicate_succ, waitGo] using ih
  · induction k with
    | zero => rfl
    | succ n ih => simpa [List.replicate_succ, waitGo] using ih
  · induction k with
    | zero => rfl
    | succ n ih => simpa [List.replicate_succ, waitGo] using ih
  · rfl
  · rfl

/-! ## Atomic IPC envelope writes (container/agent-runner/src/ipc-mcp.ts,
`writeIpcFile`) -/

/-- A directory's files as an association list from filename (full path) to
content. -/
abbrev FileSys := List (String × String)

/-- Content of a path, or none when absent. -/
def fsGet (fs : FileSys) (p : String) : Option String :=
  (fs.find? (fun q => (q.1 = p : Bool))).map (fun q => q.2)

/-- Create or replace a file. -/
def fsSet (fs : FileSys) (p c : String) : FileSys :=
  (p, c) :: fs.filter (fun q => !(q.1 = p : Bool))

/-- Remove a file. -/
def fsRemove (fs : FileSys) (p : String) : FileSys :=
  fs.filter (fun q => !(q.1 = p : Bool))

/-- The filesystem calls `writeIpcFile` performs, in order. -/
inductive FsOp
  | mkdirRec (dir : String)
  | writeFileSync (p c : String)
  | renameSync (src dst : String)
deriving DecidableEq, Repr

/-- Effect of one completed filesystem call.  `renameSync` is atomic: the
destination switches from its old state to the source's content in one step. -/
def applyOp (fs : FileSys) : FsOp → FileSys
  | FsOp.mkdirRec _ => fs
  | FsOp.writeFileSync p c => fsSet fs p c
  | FsOp.renameSync src dst =>
    match fsGet fs src with
    | some c => fsSet (fsRemove fs src) dst c
    | none => fs

/-- Embeds the body of `writeIpcFile(dir, data)`: mkdir, write the serialized
JSON to `<filepath>.tmp`, then rename the temp path onto the final path.  The
generated timestamp-random filename and the serialized content are parameters. -/
def writeIpcFileTrace (dir filename content : String) : List FsOp :=
  let filepath := dir ++ "/" ++ filename
  let tempPath := filepath ++ ".tmp"
  [FsOp.mkdirRec dir, FsOp.writeFileSync tempPath content,
   FsOp.renameSync tempPath filepath]

/-- States a concurrent reader can observe while one call is in progress: a
plain write may be seen with any prefix of its content (partial write);
mkdir and rename are atomic. -/
def midStates (fs : FileSys) : FsOp → List FileSys
  | FsOp.writeFileSync p c =>
    (List.range (c.length + 1)).map (fun k => fsSet fs p (c.take k))
  | _ => []

/-- All states observable while the given call sequence runs: the state before
each call, the partial states of each in-progress write, and the final state. -/
def observable (fs : FileSys) : List FsOp → List FileSys
  | [] => [fs]
  | op :: rest => fs :: (midStates fs op ++ observable (applyOp fs op) rest)

theorem find_key_filter_ne (p q : String) (h : p ≠ q) (l : FileSys) :
    List.find? (fun a => (a.1 = q : Bool)) (l.filter (fun a => !(a.1 = p : Bool)))
      = List.find? (fun a => (a.1 = q : Bool)) l := by
  induction l with
  | nil => rfl
  | cons x rest ih =>
    have hqp : ¬q = p := fun hh => h hh.symm
    by_cases hx : x.1 = p
    · have hxq : ¬x.1 = q := fun hq => h (hx.symm.trans hq)
      simp [List.filter_cons, List.find?, hx, hxq, h, hqp, ih]
    · by_cases hq : x.1 = q
      · simp [List.filter_cons, List.find?, hx, hq, h, hqp]
      · simp [List.filter_cons, List.find?, hx, hq, h, hqp, ih]

theorem fsGet_fsSet_ne (fs : FileSys) (p q c : String) (h : q ≠ p) :
    fsGet (fsSet fs p c) q = fsGet fs q := by
  have h' : p ≠ q := fun hpq => h hpq.symm
  simp [fsGet, fsSet, List.find?, h', find_key_filter_ne p q h' fs]

theorem fsGet_fsSet_self (fs : FileSys) (p c : String) :
    fsGet (fsSet fs p c) p = some c := by
  simp [fsGet, fsSet, List.find?]

theorem append_tmp_ne (s : String) : s ++ ".tmp" ≠ s := by
  intro h
  have hlen : (s ++ ".tmp").length = s.length := congrArg String.length h
  have h4 : (".tmp" : String).length = 4 := rfl
  rw [String.length_append, h4] at hlen
  omega

theorem writeIpcFile_observable_eq (dir filename content : String) (fs0 : FileSys) :
    observable fs0 (writeIpcFileTrace dir filename content)
      = fs0 :: fs0 ::
        ((List.range (content.length + 1)).map
            (fun k => fsSet fs0 (dir ++ "/" ++ filename ++ ".tmp") (content.take k))
          ++ [fsSet fs0 (dir ++ "/" ++ filename ++ ".tmp") content,
              fsSet (fsRemove (fsSet fs0 (dir ++ "/" ++ filename ++ ".tmp") content)
                      (dir ++ "/" ++ filename ++ ".tmp"))
                (dir ++ "/" ++ filename) content]) := by
  simp [observable, writeIpcFileTrace, midStates, applyOp, fsGet_fsSet_self]

/-- C4: every IPC envelope write follows the atomic discipline: the content is
written completely at the temporary path and only then renamed onto the final
path, so in every observable intermediate state (including partial writes) the
final path either does not exist or holds the complete content. -/
theorem writeIpcFile_atomic (dir filename content : String) (fs0 : FileSys)
    (hfresh : fsGet fs0 (dir ++ "/" ++ filename) = none) :
    ∀ fs ∈ observable fs0 (writeIpcFileTrace dir filename content),
      fsGet fs (dir ++ "/" ++ filename) = none ∨
      fsGet fs (dir ++ "/" ++ filename) = some content := by
  intro fs hfs
  have hne : (dir ++ "/" ++ filename) ≠ dir ++ "/" ++ filename ++ ".tmp" :=
    fun h => append_tmp_ne (dir ++ "/" ++ filename) h.symm
  rw [writeIpcFile_observable_eq] at hfs
  simp only [List.mem_cons, List.mem_append, List.mem_map, List.mem_range,
    List.mem_singleton, List.not_mem_nil, or_false] at hfs
  rcases hfs with h | h | ⟨k, _, h⟩ | h | h
  · exact Or.inl (h ▸ hfresh)
  · exact Or.inl (h ▸ hfresh)
  · subst h
    exact Or.inl
      ((fsGet_fsSet_ne fs0 (dir ++ "/" ++ filename ++ ".tmp") (dir ++ "/" ++ filename)
        (content.take k) hne).trans hfresh)
  · subst h
    exact Or.inl
      ((fsGet_fsSet_ne fs0 (dir ++ "/" ++ filename ++ ".tmp") (dir ++ "/" ++ filename)
        content hne).trans hfresh)
  · subst h
    exact Or.inr (fsGet_fsSet_self _ _ _)

theorem writeIpcFile_atomic_witness :
    fsGet ([] : FileSys) ("ipc/messages" ++ "/" ++ "1-ab.json") = none ∧
    (fsGet (fsSet ([] : FileSys) ("ipc/messages" ++ "/" ++ "1-ab.json" ++ ".tmp") "{}")
        ("ipc/messages" ++ "/" ++ "1-ab.json") = none ∨
      fsGet (fsSet ([] : FileSys) ("ipc/messages" ++ "/" ++ "1-ab.json" ++ ".tmp") "{}")
        ("ipc/messages" ++ "/" ++ "1-ab.json") = some "{}") := by
  refine ⟨rfl, ?_⟩
  refine writeIpcFile_atomic "ipc/messages" "1-ab.json" "{}" [] rfl
    (fsSet ([] : FileSys) ("ipc/messages" ++ "/" ++ "1-ab.json" ++ ".tmp") "{}") ?_
  rw [writeIpcFile_observable_eq]
  simp

/-! ## Scheduled-task store (src/db.ts)

The sqlite tables are embedded as row lists; each exported db.ts function
becomes a pure function on them.  Timestamps are the ISO-8601 strings the code
stores; sqlite compares TEXT bytewise, which for these ASCII strings is the
lexicographic order on `String`. -/

/-- Row of `scheduled_tasks`. -/
structure ScheduledTask where
  id : String
  group_folder : String
  chat_jid : String
  prompt : String
  schedule_type : String
  schedule_value : String
  context_mode : String
  next_run : Option String
  status : String
  last_run : Option String
  last_result : Option String
  created_at : String
deriving DecidableEq, Repr

/-- Row of `task_run_logs`. -/
structure TaskRunLog where
  task_id : String
  run_at : String
  duration_ms : Nat
  status : String
  result : Option String
  error : Option String
deriving DecidableEq, Repr

/-- The two task tables of the store. -/
structure DbState where
  tasks : List ScheduledTask
  logs : List TaskRunLog
deriving DecidableEq, Repr

/-- Effect of the UPDATE of `updateTaskAfterRun` on one row: for the matching
id it sets next_run, last_run and last_result, and sets status to completed
exactly when the bound nextRun parameter is NULL (the CASE WHEN expression);
other rows are untouched. -/
def updateRowAfterRun (id : String) (nextRun : Option String)
    (lastResult now : String) (t : ScheduledTask) : ScheduledTask :=
  if t.id = id then
    { t with
      next_run := nextRun
      last_run := some now
      last_result := some lastResult
      status := if nextRun = none then "completed" else t.status }
  else t

/-- Embeds `updateTaskAfterRun(id, nextRun, lastResult)`; `now` is the
`new Date().toISOString()` taken inside the function. -/
def updateTaskAfterRun (id : String) (nextRun : Option String)
    (lastResult now : String) (tasks : List ScheduledTask) : List ScheduledTask :=
  tasks.map (updateRowAfterRun id nextRun lastResult now)

/-- The WHERE clause of `getDueTasks`:
status = 'active' AND next_run IS NOT NULL AND next_run <= now. -/
def dueFilter (now : String) (t : ScheduledTask) : Bool :=
  (t.status = "active" : Bool) &&
    match t.next_run with
    | some v => (v ≤ now : Bool)
    | none => false

/-- ORDER BY next_run: comparison on the nullable next_run column (sqlite
sorts NULL first in ascending order; due rows are never NULL). -/
def nextRunLe (a b : ScheduledTask) : Prop :=
  match a.next_run, b.next_run with
  | none, _ => True
  | some _, none => False
  | some x, some y => x ≤ y

instance : DecidableRel nextRunLe := fun a b => by
  unfold nextRunLe
  cases a.next_run <;> cases b.next_run <;> infer_instance

instance : IsTotal ScheduledTask nextRunLe where
  total a b := by
    unfold nextRunLe
    cases a.next_run <;> cases b.next_run <;> simp [le_total]

instance : IsTrans ScheduledTask nextRunLe where
  trans a b c hab hbc := by
    unfold nextRunLe at *
    cases ha : a.next_run <;> cases hb : b.next_run <;> cases hc : c.next_run <;>
      simp_all
    exact le_trans hab hbc

/-- Embeds `getDueTasks()`: the rows passing the WHERE clause, ordered by
next_run ascending; `now` is the `new Date().toISOString()` taken inside. -/
def getDueTasks (now : String) (tasks : List ScheduledTask) : List ScheduledTask :=
  List.insertionSort nextRunLe (tasks.filter (dueFilter now))

/-- Embeds `getTaskById(id)`: first row with the id, or undefined. -/
def getTaskById (id : String) (tasks : List ScheduledTask) : Option ScheduledTask :=
  tasks.find? (fun t => (t.id = id : Bool))

/-- ORDER BY run_at DESC for run logs. -/
def runAtGe (a b : TaskRunLog) : Prop := b.run_at ≤ a.run_at

instance : DecidableRel runAtGe := fun a b => by
  unfold runAtGe
  infer_instance

/-- Embeds `getTaskRunLogs(taskId, limit)`: rows of the task, newest first,
at most `limit` of them. -/
def getTaskRunLogs (taskId : String) (limit : Nat) (logs : List TaskRunLog) :
    List TaskRunLog :=
  (List.insertionSort runAtGe (logs.filter (fun l => (l.task_id = taskId : Bool)))).take limit

/-- Embeds `deleteTask(id)`: deletes the run-log rows of the task first (FK
constraint), then the task row. -/
def deleteTask (id : String) (s : DbState) : DbState :=
  { s with
    logs := s.logs.filter (fun l => !(l.task_id = id : Bool))
    tasks := s.tasks.filter (fun t => !(t.id = id : Bool)) }

/-- C5: updateTaskAfterRun with a null nextRun (the once-task case) sets the
matching task's next_run to null and its status to completed, whatever the
run outcome recorded in lastResult; with a non-null nextRun it stores that
value and leaves the status unchanged; in both cases last_run and last_result
are updated; rows with other ids are untouched. -/
theorem updateTaskAfterRun_spec (id : String) (nextRun : Option String)
    (lastResult now : String) (tasks : List ScheduledTask)
    (t : ScheduledTask) (ht : t ∈ tasks) :
    updateRowAfterRun id nextRun lastResult now t
      ∈ updateTaskAfterRun id nextRun lastResult now tasks ∧
    (t.id = id →
      (updateRowAfterRun id nextRun lastResult now t).last_run = some now ∧
      (updateRowAfterRun id nextRun lastResult now t).last_result = some lastResult ∧
      (nextRun = none →
        (updateRowAfterRun id nextRun lastResult now t).next_run = none ∧
        (updateRowAfterRun id nextRun lastResult now t).status = "completed") ∧
      (∀ v, nextRun = some v →
        (updateRowAfterRun id nextRun lastResult now t).next_run = some v ∧
        (updateRowAfterRun id nextRun lastResult now t).status = t.status)) ∧
    (t.id ≠ id → updateRowAfterRun id nextRun lastResult now t = t) := by
  refine ⟨List.mem_map_of_mem _ ht, ?_, ?_⟩
  · intro hid
    refine ⟨?_, ?_, ?_, ?_⟩
    · simp [updateRowAfterRun, hid]
    · simp [updateRowAfterRun, hid]
    · intro hn
      constructor <;> simp [updateRowAfterRun, hid, hn]
    · intro v hv
      constructor <;> simp [updateRowAfterRun, hid, hv]
  · intro hid
    simp [updateRowAfterRun, hid]

theorem updateTaskAfterRun_spec_witness :
    (updateRowAfterRun "t1" none "failed: timeout" "2026-02-01T00:00:00.000Z"
      { id := "t1", group_folder := "main", chat_jid := "c", prompt := "p",
        schedule_type := "once", schedule_value := "2026-01-31T00:00:00",
        context_mode := "group", next_run := some "2026-01-31T00:00:00",
        status := "active", last_run := none, last_result := none,
        created_at := "2026-01-01" }).next_run = none ∧
    (updateRowAfterRun "t1" none "failed: timeout" "2026-02-01T00:00:00.000Z"
      { id := "t1", group_folder := "main", chat_jid := "c", prompt := "p",
        schedule_type := "once", schedule_value := "2026-01-31T00:00:00",
        context_mode := "group", next_run := some "2026-01-31T00:00:00",
        status := "active", last_run := none, last_result := none,
        created_at := "2026-01-01" }).status = "completed" :=
  ((updateTaskAfterRun_spec "t1" none "failed: timeout" "2026-02-01T00:00:00.000Z"
    [{ id := "t1", group_folder := "main", chat_jid := "c", prompt := "p",
       schedule_type := "once", schedule_value := "2026-01-31T00:00:00",
       context_mode := "group", next_run := some "2026-01-31T00:00:00",
       status := "active", last_run := none, last_result := none,
       created_at := "2026-01-01" }]
    { id := "t1", group_folder := "main", chat_jid := "c", prompt := "p",
      schedule_type := "once", schedule_value := "2026-01-31T00:00:00",
      context_mode := "group", next_run := some "2026-01-31T00:00:00",
      status := "active", last_run := none, last_result := none,
      created_at := "2026-01-01" }
    (List.mem_singleton.mpr rfl)).2.1 rfl).2.2.1 rfl

/-- C6: getDueTasks returns exactly the active tasks whose next_run is
non-null and at most the evaluation time, sorted by next_run ascending. -/
theorem getDueTasks_spec (now : String) (tasks : List ScheduledTask) :
    (∀ t, t ∈ getDueTasks now tasks ↔
      t ∈ tasks ∧ t.status = "active" ∧ ∃ v, t.next_run = some v ∧ v ≤ now) ∧
    (getDueTasks now tasks).Sorted nextRunLe := by
  constructor
  · intro t
    rw [getDueTasks, (List.perm_insertionSort nextRunLe _).mem_iff, List.mem_filter]
    constructor
    · rintro ⟨hmem, hdue⟩
      refine ⟨hmem, ?_, ?_⟩
      · simp only [dueFilter, Bool.and_eq_true, decide_eq_true_eq] at hdue
        exact hdue.1
      · simp only [dueFilter, Bool.and_eq_true] at hdue
        rcases hv : t.next_run with _ | v
        · rw [hv] at hdue
          simp at hdue
        · rw [hv] at hdue
          exact ⟨v, rfl, by simpa using hdue.2⟩
    · rintro ⟨hmem, hact, v, hv, hle⟩
      exact ⟨hmem, by simp [dueFilter, hact, hv, hle]⟩
  · exact List.sorted_insertionSort nextRunLe _

/-- C8: cancelling a task deletes both the scheduled_tasks row and every
task_run_logs row referencing it: afterwards getTaskById is not-found,
getTaskRunLogs is empty, and rows of other tasks are exactly preserved. -/
theorem deleteTask_spec (id : String) (s : DbState) (limit : Nat) :
    getTaskById id (deleteTask id s).tasks = none ∧
    getTaskRunLogs id limit (deleteTask id s).logs = [] ∧
    (∀ t, t ∈ (deleteTask id s).tasks ↔ t ∈ s.tasks ∧ t.id ≠ id) ∧
    (∀ l, l ∈ (deleteTask id s).logs ↔ l ∈ s.logs ∧ l.task_id ≠ id) := by
  refine ⟨?_, ?_, ?_, ?_⟩
  · rw [getTaskById, List.find?_eq_none]
    intro t ht
    rw [deleteTask] at ht
    simp only [List.mem_filter, Bool.not_eq_true', decide_eq_false_iff_not] at ht
    simpa using ht.2
  · have hempty : (deleteTask id s).logs.filter (fun l => (l.task_id = id : Bool)) = [] := by
      rw [deleteTask, List.filter_filter]
      apply List.filter_eq_nil_iff.mpr
      intro l _
      by_cases h : l.task_id = id <;> simp [h]
    rw [getTaskRunLogs, hempty]
    simp [List.insertionSort]
  · intro t
    rw [deleteTask]
    simp [List.mem_filter]
  · intro l
    rw [deleteTask]
    simp [List.mem_filter]

/-! ## The schedule_task tool (container/agent-runner/src/ipc-mcp.ts)

The cron library (`CronExpressionParser.parse`) and the JS `Date` constructor
are external collaborators and enter as boolean-parser parameters; `parseInt`
is embedded exactly. -/

/-- Numeric value of a decimal digit character. -/
def digitVal (c : Char) : Nat := c.toNat - '0'.toNat

/-- Embeds `parseInt(s, 10)`: skip leading whitespace, take an optional sign,
then the longest prefix of decimal digits; NaN (`none`) when there is no
digit, otherwise the signed value of the digit prefix — characters after the
digits are ignored. -/
def parseIntJs (s : String) : Option Int :=
  let cs := s.data.dropWhile (fun c => c.isWhitespace)
  let p : Int × List Char :=
    match cs with
    | '-' :: rest => (-1, rest)
    | '+' :: rest => (1, rest)
    | _ => (1, cs)
  let ds := p.2.takeWhile (fun c => c.isDigit)
  if ds.isEmpty then none
  else some (p.1 * ((ds.foldl (fun a c => a * 10 + digitVal c) 0 : Nat) : Int))

/-- A string that denotes a positive integer: an optional plus sign, then only
decimal digits, with positive value.  Used to state what "the value is a
positive integer" means, independently of parseInt. -/
def isPositiveIntegerString (s : String) : Bool :=
  let cs := match s.data with
    | '+' :: rest => rest
    | cs => cs
  !cs.isEmpty && cs.all (fun c => c.isDigit) &&
    decide (0 < cs.foldl (fun a c => a * 10 + digitVal c) 0)

/-- The context `createIpcMcp` closes over. -/
structure IpcMcpContext where
  chatJid : String
  groupFolder : String
  isMain : Bool
  triggerSource : String
  emailEnabled : Bool
deriving DecidableEq, Repr

inductive ScheduleType
  | cron
  | interval
  | once
deriving DecidableEq, Repr

/-- Wire tag of a schedule type. -/
def ScheduleType.toWire : ScheduleType → String
  | ScheduleType.cron => "cron"
  | ScheduleType.interval => "interval"
  | ScheduleType.once => "once"

/-- Arguments of the schedule_task tool after zod decoding. -/
structure ScheduleArgs where
  prompt : String
  schedule_type : ScheduleType
  schedule_value : String
  context_mode : Option String
  target_group : Option String
deriving DecidableEq, Repr

/-- The JSON object written to the tasks directory by schedule_task. -/
structure TaskEnvelope where
  type : String
  prompt : String
  schedule_type : String
  schedule_value : String
  context_mode : String
  groupFolder : String
  chatJid : String
  createdBy : String
  timestamp : String
deriving DecidableEq, Repr

/-- Observable outcome of one schedule_task call: whether the tool reported an
error, and the envelope written to TASKS_DIR, if any. -/
structure ToolResult where
  isError : Bool
  written : Option TaskEnvelope
deriving DecidableEq, Repr

/-- Embeds the schedule_task handler: validate the schedule value per type
(cron via the cron parser, interval via `parseInt` positive, once via the Date
parser), returning an error and writing nothing on failure; otherwise resolve
the target group (only main may redirect, and only with a truthy
target_group), default the context mode, and write the envelope. -/
def scheduleTaskTool (cronParses dateParses : String → Bool)
    (ctx : IpcMcpContext) (args : ScheduleArgs) (nowIso : String) : ToolResult :=
  let invalid : Bool :=
    match args.schedule_type with
    | ScheduleType.cron => !cronParses args.schedule_value
    | ScheduleType.interval =>
      match parseIntJs args.schedule_value with
      | none => true
      | some ms => decide (ms ≤ 0)
    | ScheduleType.once => !dateParses args.schedule_value
  if invalid then { isError := true, written := none }
  else
    let targetGroup :=
      match args.target_group with
      | some t => if ctx.isMain && !(t = "" : Bool) then t else ctx.groupFolder
      | none => ctx.groupFolder
    let contextMode :=
      match args.context_mode with
      | some c => if c = "" then "group" else c
      | none => "group"
    { isError := false
      written := some
        { type := "schedule_task"
          prompt := args.prompt
          schedule_type := args.schedule_type.toWire
          schedule_value := args.schedule_value
          context_mode := contextMode
          groupFolder := targetGroup
          chatJid := ctx.chatJid
          createdBy := ctx.groupFolder
          timestamp := nowIso } }

/-- C7 counterexample: with schedule_type interval and schedule_value "5x" —
not a positive integer — the tool does not reject: parseInt("5x", 10) = 5, so
the call succeeds and the envelope is written with the value "5x" persisted
verbatim, a silent coercion. -/
theorem scheduleTask_accepts_noninteger_interval :
    (scheduleTaskTool (fun _ => false) (fun _ => false)
      { chatJid := "c", groupFolder := "family", isMain := false,
        triggerSource := "user", emailEnabled := false }
      { prompt := "p", schedule_type := ScheduleType.interval,
        schedule_value := "5x", context_mode := some "group",
        target_group := none } "2026-02-01T00:00:00.000Z").isError = false ∧
    (scheduleTaskTool (fun _ => false) (fun _ => false)
      { chatJid := "c", groupFolder := "family", isMain := false,
        triggerSource := "user", emailEnabled := false }
      { prompt := "p", schedule_type := ScheduleType.interval,
        schedule_value := "5x", context_mode := some "group",
        target_group := none } "2026-02-01T00:00:00.000Z").written
      = some { type := "schedule_task", prompt := "p",
               schedule_type := "interval", schedule_value := "5x",
               context_mode := "group", groupFolder := "family",
               chatJid := "c", createdBy := "family",
               timestamp := "2026-02-01T00:00:00.000Z" } ∧
    isPositiveIntegerString "5x" = false := by
  decide

/-- C7 (amended): the schedule value is validated before any envelope is
persisted and a validation failure returns an error with no IPC file written;
a cron value is rejected iff the cron parser rejects it and a once value iff
the Date parser rejects it; an interval value is rejected iff parseInt(v, 10)
is NaN or nonpositive — so a string whose leading digits form a positive
integer is accepted even when followed by non-numeric characters, and the
original string is persisted in the envelope. -/
theorem scheduleTaskTool_validation (cronParses dateParses : String → Bool)
    (ctx : IpcMcpContext) (args : ScheduleArgs) (nowIso : String) :
    ((scheduleTaskTool cronParses dateParses ctx args nowIso).isError = true ↔
      (match args.schedule_type with
       | ScheduleType.cron => cronParses args.schedule_value = false
       | ScheduleType.interval =>
         parseIntJs args.schedule_value = none ∨
           ∃ ms, parseIntJs args.schedule_value = some ms ∧ ms ≤ 0
       | ScheduleType.once => dateParses args.schedule_value = false)) ∧
    ((scheduleTaskTool cronParses dateParses ctx args nowIso).isError = true →
      (scheduleTaskTool cronParses dateParses ctx args nowIso).written = none) ∧
    ((scheduleTaskTool cronParses dateParses ctx args nowIso).isError = false →
      ∃ env, (scheduleTaskTool cronParses dateParses ctx args nowIso).written = some env ∧
        env.schedule_value = args.schedule_value ∧ env.type = "schedule_task") := by
  cases hst : args.schedule_type with
  | cron =>
    cases hcr : cronParses args.schedule_value <;>
      simp [scheduleTaskTool, hst, hcr]
  | interval =>
    cases hp : parseIntJs args.schedule_value with
    | none => simp [scheduleTaskTool, hst, hp]
    | some ms =>
      by_cases hms : ms ≤ 0
      · simp [scheduleTaskTool, hst, hp, hms]
      · simp [scheduleTaskTool, hst, hp, hms]
  | once =>
    cases hd : dateParses args.schedule_value <;>
      simp [scheduleTaskTool, hst, hd]

theorem scheduleTaskTool_validation_witness :
    ∃ env,
      (scheduleTaskTool (fun _ => true) (fun _ => true)
        { chatJid := "c", groupFolder := "main", isMain := true,
          triggerSource := "user", emailEnabled := false }
        { prompt := "p", schedule_type := ScheduleType.cron,
          schedule_value := "*/5 * * * *", context_mode := some "group",
          target_group := none } "2026-02-01T00:00:00.000Z").written = some env ∧
      env.schedule_value = "*/5 * * * *" ∧ env.type = "schedule_task" :=
  (scheduleTaskTool_validation (fun _ => true) (fun _ => true)
    { chatJid := "c", groupFolder := "main", isMain := true,
      triggerSource := "user", emailEnabled := false }
    { prompt := "p", schedule_type := ScheduleType.cron,
      schedule_value := "*/5 * * * *", context_mode := some "group",
      target_group := none } "2026-02-01T00:00:00.000Z").2.2 (by decide)

/-- C10: a non-main caller cannot schedule work for another group: when
isMain is false, any envelope written has groupFolder equal to the caller's
own group folder, and two calls differing only in target_group produce
identical results. -/
theorem scheduleTask_nonMain_target_confined (cronParses dateParses : String → Bool)
    (ctx : IpcMcpContext) (args : ScheduleArgs) (nowIso : String)
    (tg1 tg2 : Option String) (h : ctx.isMain = false) :
    (∀ env, (scheduleTaskTool cronParses dateParses ctx args nowIso).written = some env →
      env.groupFolder = ctx.groupFolder) ∧
    scheduleTaskTool cronParses dateParses ctx { args with target_group := tg1 } nowIso
      = scheduleTaskTool cronParses dateParses ctx { args with target_group := tg2 } nowIso := by
  constructor
  · intro env henv
    rw [scheduleTaskTool] at henv
    by_cases hinv : (match args.schedule_type with
      | ScheduleType.cron => !cronParses args.schedule_value
      | ScheduleType.interval =>
        match parseIntJs args.schedule_value with
        | none => true
        | some ms => decide (ms ≤ 0)
      | ScheduleType.once => !dateParses args.schedule_value) = true
    · simp only [hinv, if_true] at henv
      exact absurd henv (by simp)
    · simp only [Bool.not_eq_true] at hinv
      simp only [hinv, Bool.false_eq_true, if_false, Option.some.injEq] at henv
      subst henv
      cases args.target_group with
      | none => rfl
      | some t => simp [h]
  · rw [scheduleTaskTool, scheduleTaskTool]
    simp only [h, Bool.false_and]
    cases tg1 <;> cases tg2 <;> rfl

theorem scheduleTask_nonMain_target_confined_witness :
    scheduleTaskTool (fun _ => true) (fun _ => true)
      { chatJid := "c", groupFolder := "family", isMain := false,
        triggerSource := "user", emailEnabled := false }
      { prompt := "p", schedule_type := ScheduleType.cron,
        schedule_value := "*/5 * * * *", context_mode := some "group",
        target_group := some "main" } "2026-02-01T00:00:00.000Z"
      = scheduleTaskTool (fun _ => true) (fun _ => true)
          { chatJid := "c", groupFolder := "family", isMain := false,
            triggerSource := "user", emailEnabled := false }
          { prompt := "p", schedule_type := ScheduleType.cron,
            schedule_value := "*/5 * * * *", context_mode := some "group",
            target_group := some "other" } "2026-02-01T00:00:00.000Z" :=
  (scheduleTask_nonMain_target_confined (fun _ => true) (fun _ => true)
    { chatJid := "c", groupFolder := "family", isMain := false,
      triggerSource := "user", emailEnabled := false }
    { prompt := "p", schedule_type := ScheduleType.cron,
      schedule_value := "*/5 * * * *", context_mode := some "group",
      target_group := none } "2026-02-01T00:00:00.000Z"
    (some "main") (some "other") rfl).2

end NanoClaw
